import Mathlib

/-
Verification of the GROMACS export core of openff-system
(src/openff/system/interop/internal/gromacs.py).

The Python module is shallowly embedded: physical quantities are modelled as
rationals (the magnitude already expressed in the target unit, except where the
claim under scrutiny concerns the unit conversion itself, in which case an
explicit conversion factor is carried), Python dictionaries are modelled as
association lists in insertion order, and fallible code returns Except.
Formatted output is modelled structurally: each emitted line becomes a record
holding the values that the format string would print, and fixed-width float
fields carry their width and precision.
-/

namespace OpenFFGromacs

/-- Modelled from the spec: `TopologyKey` lives in `openff.system.models`, which
is not part of the sources here.  Per spec section 3 an interaction key is an
ordered tuple of atom indices with tuple equality; the optional `mult`
component is what lets two distinct registry keys share one atom-index tuple
(several periodicities of one torsion), which is exactly the situation in which
the slot-map scans of the export code see more than one matching entry. -/
structure TopologyKey where
  atom_indices : List Nat
  mult : Option Nat
  deriving DecidableEq

/-- Error outcomes of the export code.  `unsupportedExport` models the
`UnsupportedExportError` raised explicitly by the module; `unboundLocal` models
Python's `UnboundLocalError`/`NameError` on reading a never-assigned local;
`keyError`/`keyErrorNat`/`keyErrorKey` model `KeyError` on dict access (by
string key, integer key, or `TopologyKey`); `missingParameter` models the
`MissingParameterError` named by the specification (the module never raises
it). -/
inductive GmxError where
  | unsupportedExport : String → GmxError
  | unboundLocal : String → GmxError
  | keyError : String → GmxError
  | keyErrorNat : Nat → GmxError
  | keyErrorKey : TopologyKey → GmxError
  | missingParameter : String → GmxError
  deriving DecidableEq

/-- Association-list lookup, modelling Python `dict.get` (first binding wins;
a Python dict has unique keys, so insertion order is preserved and lookup is
unambiguous). -/
def dlookup {α β : Type} [DecidableEq α] : List (α × β) → α → Option β
  | [], _ => none
  | e :: rest, k => if e.1 = k then some e.2 else dlookup rest k

/-- Parameter dictionary of one potential: parameter name to magnitude, the
magnitude being stored already in the unit the export converts to. -/
abbrev Params : Type := List (String × ℚ)

/-- One handler of the handler set: its 1-4 scaling factor, its slot map
(insertion-ordered), its potential registry and its per-atom charges. -/
structure Handler where
  scale_14 : ℚ
  slot_map : List (TopologyKey × String)
  potentials : List (String × Params)
  charges : List (TopologyKey × ℚ)

def hfind (hs : List (String × Handler)) (name : String) : Option Handler :=
  dlookup hs name

/-- Python `name in openff_sys.handlers`. -/
def hmem (hs : List (String × Handler)) (name : String) : Bool :=
  (hfind hs name).isSome

/-- Python `openff_sys.handlers[name]`: raises `KeyError` when absent. -/
def hget (hs : List (String × Handler)) (name : String) : Except GmxError Handler :=
  match hfind hs name with
  | some h => .ok h
  | none => .error (.keyError name)

def pfind (ps : Params) (name : String) : Option ℚ :=
  dlookup ps name

/-- Python `params[name]` on a parameter dict: raises `KeyError` when absent. -/
def pget (ps : Params) (name : String) : Except GmxError ℚ :=
  match pfind ps name with
  | some v => .ok v
  | none => .error (.keyError name)

/-- Python `handler.potentials[pot_key]`. -/
def potGet (h : Handler) (pk : String) : Except GmxError Params :=
  match dlookup h.potentials pk with
  | some ps => .ok ps
  | none => .error (.keyError pk)

/-- Python `handler.slot_map[key]` (direct dict access, not the scan loop). -/
def slotGet (h : Handler) (k : TopologyKey) : Except GmxError String :=
  match dlookup h.slot_map k with
  | some pk => .ok pk
  | none => .error (.keyErrorKey k)

/-- Python `handler.charges[key]`. -/
def chargeGet (h : Handler) (k : TopologyKey) : Except GmxError ℚ :=
  match dlookup h.charges k with
  | some q => .ok q
  | none => .error (.keyErrorKey k)

/-- Python `int(...)` on a rational magnitude: truncation toward zero. -/
def pyInt (q : ℚ) : ℤ :=
  if 0 ≤ q.num then ((q.num.natAbs / q.den : ℕ) : ℤ)
  else -((q.num.natAbs / q.den : ℕ) : ℤ)

/-- Floor of a rational, written so that the kernel can evaluate it
(`Int.fdiv` is floor division and `q.den` is positive). -/
def ratFloor (q : ℚ) : ℤ :=
  Int.fdiv q.num q.den

/-- Round to the nearest integer, ties to even: the rounding mode of
`numpy.round`. -/
def roundHalfEven (x : ℚ) : ℤ :=
  let f := ratFloor x
  let r := x - (f : ℚ)
  if r < 1/2 then f
  else if 1/2 < r then f + 1
  else if f % 2 = 0 then f else f + 1

/-- Python `np.round(x, n)`: round to `n` decimal digits, ties to even. -/
def np_round (x : ℚ) (n : ℕ) : ℚ :=
  (roundHalfEven (x * (10 : ℚ) ^ n) : ℚ) / (10 : ℚ) ^ n

/-- One atom of the external mdtraj topology, as the export reads it. -/
structure MAtom where
  symbol : String
  mass : ℚ
  atomicNumber : ℤ
  resIndex : ℕ
  resName : String
  resStr : String
  deriving DecidableEq

/-- A 3 by 3 box matrix (row-major component names). -/
structure Box3 where
  xx : ℚ
  xy : ℚ
  xz : ℚ
  yx : ℚ
  yy : ℚ
  yz : ℚ
  zx : ℚ
  zy : ℚ
  zz : ℚ
  deriving DecidableEq

/-- The in-memory System, restricted to what the GROMACS export reads.
`posToNm` and `boxToNm` are the positive conversion factors from the stored
length unit of positions resp. box to nanometers (what `.to(unit.nanometer)`
multiplies the magnitudes by). -/
structure GmxSystem where
  atoms : List MAtom
  positions : List (ℚ × ℚ × ℚ)
  posToNm : ℚ
  box : Box3
  boxToNm : ℚ
  bonds : List (ℕ × ℕ)
  angles : List (ℕ × ℕ × ℕ)
  propers : List (ℕ × ℕ × ℕ × ℕ)
  impropers : List (ℕ × ℕ × ℕ × ℕ)
  handlers : List (String × Handler)

/-- Auxiliary loop of `_build_typemap`: `c` is the per-element counter table
(Python dict `elements`, total with default 0), `i` the running atom index. -/
def buildTypemapGo : List MAtom → (String → ℕ) → ℕ → List (ℕ × String)
  | [], _, _ => []
  | a :: rest, c, i =>
    (i, a.symbol ++ toString (c a.symbol + 1)) ::
      buildTypemapGo rest (fun t => if t = a.symbol then c a.symbol + 1 else c t) (i + 1)

/-- `_build_typemap`: element symbol followed by the running per-element
count, assigned in atom-index order. -/
def _build_typemap (atoms : List MAtom) : List (ℕ × String) :=
  buildTypemapGo atoms (fun _ => 0) 0

/-- A fixed-width floating-point output field: `%{width}.{prec}f` applied to
`value`. -/
structure FixedField where
  width : ℕ
  prec : ℕ
  value : ℚ
  deriving DecidableEq

/-- One atom line of the .gro file, after the `%5d%-5s%5s%5d` prefix the three
position fields. -/
structure GroAtomLine where
  residueSerial : ℕ
  residueName : String
  atomName : String
  atomSerial : ℕ
  x : FixedField
  y : FixedField
  z : FixedField
  deriving DecidableEq

def dfltGroLine : GroAtomLine :=
  ⟨0, "", "", 0, ⟨0, 0, 0⟩, ⟨0, 0, 0⟩, ⟨0, 0, 0⟩⟩

/-- One .gro atom line: note that the position is rounded in its stored unit
first (`np.round(openff_sys.positions, decimal)`) and only then converted to
nanometers (`.to(unit.nanometer)`), as in the source. -/
def groLineOf (tm : List (ℕ × String)) (d : ℕ) (f : ℚ) (i : ℕ) (a : MAtom)
    (p : ℚ × ℚ × ℚ) : GroAtomLine :=
  ⟨(a.resIndex + 1) % 100000, a.resName, (dlookup tm i).getD "", (i + 1) % 100000,
    ⟨d + 5, d, f * np_round p.1 d⟩,
    ⟨d + 5, d, f * np_round p.2.1 d⟩,
    ⟨d + 5, d, f * np_round p.2.2 d⟩⟩

def groLinesGo (tm : List (ℕ × String)) (d : ℕ) (f : ℚ) :
    ℕ → List MAtom → List (ℚ × ℚ × ℚ) → List GroAtomLine
  | _, [], _ => []
  | _, _ :: _, [] => []
  | i, a :: as, p :: ps => groLineOf tm d f i a p :: groLinesGo tm d f (i + 1) as ps

/-- Zero the off-diagonal entries: `np.diag(np.diagonal(box))`. -/
def diagOnly (b : Box3) : Box3 :=
  ⟨b.xx, 0, 0, 0, b.yy, 0, 0, 0, b.zz⟩

/-- Rectangularity test of the coordinate writer:
`(box == np.diag(np.diagonal(box))).all()`, applied after conversion to nm. -/
def isRectangular (b : Box3) : Bool :=
  decide (b = diagOnly b)

def boxScale (f : ℚ) (b : Box3) : Box3 :=
  ⟨f * b.xx, f * b.xy, f * b.xz, f * b.yx, f * b.yy, f * b.yz,
    f * b.zx, f * b.zy, f * b.zz⟩

/-- An `%11.7f` box field. -/
def ff117 (v : ℚ) : FixedField := ⟨11, 7, v⟩

/-- The final box line of the .gro file: three diagonal fields, and for a
non-rectangular box additionally the six off-diagonal fields in row-major
order skipping the diagonal. -/
def writeGroBox (sys : GmxSystem) : List FixedField :=
  let b := boxScale sys.boxToNm sys.box
  if isRectangular b then
    [ff117 b.xx, ff117 b.yy, ff117 b.zz]
  else
    [ff117 b.xx, ff117 b.yy, ff117 b.zz,
      ff117 b.xy, ff117 b.xz, ff117 b.yx, ff117 b.yz, ff117 b.zx, ff117 b.zy]

/-- Structured content of the .gro file written by `to_gro`. -/
structure GroOutput where
  title : String
  atomCount : ℕ
  lines : List GroAtomLine
  boxLine : List FixedField
  deriving DecidableEq

/-- `to_gro`: coordinate-file writer (`decimal` defaults to 8 in the source). -/
def to_gro (sys : GmxSystem) (decimal : ℕ) : GroOutput :=
  ⟨"Generated by OpenFF", sys.positions.length,
    groLinesGo (_build_typemap sys.atoms) decimal sys.posToNm 0 sys.atoms sys.positions,
    writeGroBox sys⟩

/-- The `[ defaults ]` line: nbfunc, comb-rule (written via `str(2)`),
gen-pairs, fudgeLJ, fudgeQQ. -/
structure DefaultsLine where
  nbfunc : ℤ
  combRule : String
  genPairs : String
  fudgeLJ : ℚ
  fudgeQQ : ℚ
  deriving DecidableEq

/-- `_write_top_defaults`.  The source has an `if "vdW" / elif "Buckingham-6"`
chain with no `else`: when neither branch fires, the local `nbfunc` is read
unassigned (UnboundLocalError); the `Electrostatics` lookup happens inside the
format call, after the branch. -/
def _write_top_defaults (sys : GmxSystem) : Except GmxError DefaultsLine :=
  match hfind sys.handlers "vdW" with
  | some hv =>
    (hget sys.handlers "Electrostatics").map
      (fun e => ⟨1, "2", "yes", hv.scale_14, e.scale_14⟩)
  | none =>
    match hfind sys.handlers "Buckingham-6" with
    | some hb =>
      (hget sys.handlers "Electrostatics").map
        (fun e => ⟨2, "2", "no", hb.scale_14, e.scale_14⟩)
    | none => .error (.unboundLocal "nbfunc")

/-- One `[ atomtypes ]` line: label, atomic number, mass, charge, ptype,
then two (LJ) or three (Buckingham) parameter values. -/
inductive AtomtypeLine where
  | lj : String → ℤ → ℚ → ℚ → String → ℚ → ℚ → AtomtypeLine
  | buck : String → ℤ → ℚ → ℚ → String → ℚ → ℚ → ℚ → AtomtypeLine
  deriving DecidableEq

/-- `openff_sys.topology.mdtop.atom(atom_idx)`. -/
def listAtom (sys : GmxSystem) (idx : ℕ) : Except GmxError MAtom :=
  match sys.atoms.get? idx with
  | some a => .ok a
  | none => .error (.keyErrorNat idx)

/-- `_get_lj_parameters`: direct slot-map and registry dict accesses. -/
def _get_lj_parameters (sys : GmxSystem) (idx : ℕ) : Except GmxError Params := do
  let h ← hget sys.handlers "vdW"
  let pk ← slotGet h ⟨[idx], none⟩
  potGet h pk

/-- `_get_buck_parameters`. -/
def _get_buck_parameters (sys : GmxSystem) (idx : ℕ) : Except GmxError Params := do
  let h ← hget sys.handlers "Buckingham-6"
  let pk ← slotGet h ⟨[idx], none⟩
  potGet h pk

/-- One line of `_write_atomtypes_lj` for a typemap entry. -/
def ljLineOf (sys : GmxSystem) (idx : ℕ) (label : String) :
    Except GmxError AtomtypeLine := do
  let a ← listAtom sys idx
  let params ← _get_lj_parameters sys idx
  let sigma ← pget params "sigma"
  let eps ← pget params "epsilon"
  .ok (.lj label a.atomicNumber a.mass 0 "A" sigma eps)

/-- One line of `_write_atomtypes_buck` for a typemap entry. -/
def buckLineOf (sys : GmxSystem) (idx : ℕ) (label : String) :
    Except GmxError AtomtypeLine := do
  let a ← listAtom sys idx
  let params ← _get_buck_parameters sys idx
  let av ← pget params "A"
  let bv ← pget params "B"
  let cv ← pget params "C"
  .ok (.buck label a.atomicNumber a.mass 0 "A" av bv cv)

def _write_atomtypes_lj (sys : GmxSystem) (tm : List (ℕ × String)) :
    Except GmxError (List AtomtypeLine) :=
  tm.mapM (fun e => ljLineOf sys e.1 e.2)

def _write_atomtypes_buck (sys : GmxSystem) (tm : List (ℕ × String)) :
    Except GmxError (List AtomtypeLine) :=
  tm.mapM (fun e => buckLineOf sys e.1 e.2)

/-- `_write_atomtypes`: branch on which vdW-like handler is present. -/
def _write_atomtypes (sys : GmxSystem) (tm : List (ℕ × String)) :
    Except GmxError (List AtomtypeLine) :=
  if hmem sys.handlers "vdW" then
    if hmem sys.handlers "Buckingham-6" then
      .error (.unsupportedExport "Cannot mix 12-6 and Buckingham potentials in GROMACS")
    else _write_atomtypes_lj sys tm
  else
    if hmem sys.handlers "Buckingham-6" then _write_atomtypes_buck sys tm
    else .error (.unsupportedExport "No vdW interactions found")

/-- One `[ atoms ]` line. -/
structure AtomLine where
  num : ℕ
  atomType : String
  resnum : ℕ
  resname : String
  atomname : String
  cgnr : ℕ
  charge : ℚ
  mass : ℚ
  deriving DecidableEq

/-- Loop body of `_write_atoms`: typemap dict access, then the per-atom charge
via the Electrostatics handler (looked up inside the loop). -/
def atomLineOf (eh : Handler) (tm : List (ℕ × String)) (i : ℕ) (a : MAtom) :
    Except GmxError AtomLine := do
  let atomType ←
    match dlookup tm i with
    | some s => Except.ok s
    | none => Except.error (GmxError.keyErrorNat i)
  let charge ← chargeGet eh ⟨[i], none⟩
  .ok ⟨i + 1, atomType, a.resIndex + 1, a.resStr, atomType, i + 1, charge, a.mass⟩

def atomsGo (sys : GmxSystem) (tm : List (ℕ × String)) :
    ℕ → List MAtom → Except GmxError (List AtomLine)
  | _, [] => .ok []
  | i, a :: rest => do
    let eh ← hget sys.handlers "Electrostatics"
    let l ← atomLineOf eh tm i a
    let ls ← atomsGo sys tm (i + 1) rest
    .ok (l :: ls)

/-- `[ atoms ]` section of `_write_atoms`. -/
def _write_atoms (sys : GmxSystem) (tm : List (ℕ × String)) :
    Except GmxError (List AtomLine) :=
  atomsGo sys tm 0 sys.atoms

/-- One `[ pairs ]` line. -/
structure PairLine where
  ai : ℕ
  aj : ℕ
  funct : ℤ
  deriving DecidableEq

/-- `[ pairs ]` section of `_write_atoms`: first and last atom of every
proper-torsion quartet, function code 1. -/
def _write_pairs (sys : GmxSystem) : List PairLine :=
  sys.propers.map (fun q => ⟨q.1 + 1, q.2.2.2 + 1, 1⟩)

/-- Scan loop shared by the bonds and angles writers:
`for top_key in slot_map: if top_key.atom_indices == indices: pot_key = ...`.
`init` is the value the Python local `pot_key` holds before the loop
(`none` models "unassigned"). -/
def scanSlot (sm : List (TopologyKey × String)) (indices : List ℕ)
    (init : Option String) : Option String :=
  sm.foldl (fun acc e => if e.1.atom_indices = indices then some e.2 else acc) init

/-- `tuple(sorted((bond.atom1.index, bond.atom2.index)))`. -/
def bondKey (b : ℕ × ℕ) : List ℕ :=
  [min b.1 b.2, max b.1 b.2]

/-- One `[ bonds ]` line (`funct` is written via `str(1)`). -/
structure BondLine where
  ai : ℕ
  aj : ℕ
  funct : String
  length : ℚ
  k : ℚ
  deriving DecidableEq

/-- Emission of one bond line once `pot_key` has been resolved to `pk`. -/
def bondEmit (h : Handler) (acc : List BondLine) (bond : ℕ × ℕ) (pk : String) :
    Except GmxError (List BondLine) := do
  let params ← potGet h pk
  let k ← pget params "k"
  let len ← pget params "length"
  .ok (acc ++ [⟨min bond.1 bond.2 + 1, max bond.1 bond.2 + 1, "1", len, k⟩])

/-- Loop body of `_write_bonds`.  The source deletes `pot_key` at the end of
each iteration, so every iteration starts the scan from the unassigned state;
a bond with no matching slot-map entry therefore reads `pot_key` unassigned. -/
def bondStep (h : Handler) (acc : List BondLine) (bond : ℕ × ℕ) :
    Except GmxError (List BondLine) :=
  match scanSlot h.slot_map (bondKey bond) none with
  | none => .error (.unboundLocal "pot_key")
  | some pk => bondEmit h acc bond pk

/-- `_write_bonds`: `none` when the section is skipped (no Bonds handler). -/
def _write_bonds (sys : GmxSystem) : Except GmxError (Option (List BondLine)) :=
  match hfind sys.handlers "Bonds" with
  | none => .ok none
  | some h => (sys.bonds.foldlM (bondStep h) []).map some

/-- One `[ angles ]` line (`funct` is written via `str(1)`). -/
structure AngleLine where
  ai : ℕ
  aj : ℕ
  ak : ℕ
  funct : String
  theta : ℚ
  k : ℚ
  deriving DecidableEq

def angleKey (ang : ℕ × ℕ × ℕ) : List ℕ :=
  [ang.1, ang.2.1, ang.2.2]

/-- Emission of one angle line once `pot_key` holds `pk`. -/
def angleEmit (h : Handler) (pk : String) (acc : List AngleLine) (ang : ℕ × ℕ × ℕ) :
    Except GmxError (Option String × List AngleLine) := do
  let params ← potGet h pk
  let k ← pget params "k"
  let th ← pget params "angle"
  .ok (some pk, acc ++ [⟨ang.1 + 1, ang.2.1 + 1, ang.2.2 + 1, "1", th, k⟩])

/-- Loop body of `_write_angles`.  Unlike the bonds loop there is no
`del pot_key`, so the previously resolved identifier persists into the next
iteration's scan as its initial value. -/
def angleStep (h : Handler) (st : Option String × List AngleLine) (ang : ℕ × ℕ × ℕ) :
    Except GmxError (Option String × List AngleLine) :=
  match scanSlot h.slot_map (angleKey ang) st.1 with
  | none => .error (.unboundLocal "pot_key")
  | some pk => angleEmit h pk st.2 ang

/-- `_write_angles`: `none` when the section is skipped (no Angles handler). -/
def _write_angles (sys : GmxSystem) : Except GmxError (Option (List AngleLine)) :=
  match hfind sys.handlers "Angles" with
  | none => .ok none
  | some h => (sys.angles.foldlM (angleStep h) (none, [])).map (fun st => some st.2)

/-- One `[ dihedrals ]` line: proper (function code 1), Ryckaert-Bellemans
(function code 3), or improper (function code 4). -/
inductive DihLine where
  | proper : ℕ → ℕ → ℕ → ℕ → ℤ → ℚ → ℚ → ℤ → DihLine
  | rb : ℕ → ℕ → ℕ → ℕ → ℤ → ℚ → ℚ → ℚ → ℚ → ℚ → ℚ → DihLine
  | improper : ℕ → ℕ → ℕ → ℕ → ℤ → ℚ → ℚ → ℤ → DihLine
  deriving DecidableEq

def qList (q : ℕ × ℕ × ℕ × ℕ) : List ℕ :=
  [q.1, q.2.1, q.2.2.1, q.2.2.2]

/-- Emission of one function-code-1 dihedral line for a matching slot-map
entry: `idivf` defaults to 1 when absent from the parameter dict. -/
def properEmit (h : Handler) (q : ℕ × ℕ × ℕ × ℕ) (acc : List DihLine)
    (e : TopologyKey × String) : Except GmxError (List DihLine) := do
  let params ← potGet h e.2
  let k ← pget params "k"
  let per ← pget params "periodicity"
  let phase ← pget params "phase"
  let idivf : ℤ := match pfind params "idivf" with | some v => pyInt v | none => 1
  .ok (acc ++ [DihLine.proper (q.1 + 1) (q.2.1 + 1) (q.2.2.1 + 1) (q.2.2.2 + 1) 1
    phase (k / (idivf : ℚ)) (pyInt per)])

/-- Proper pass over one quartet: one emitted line per matching entry of the
ProperTorsions slot map. -/
def properPassQuartet (h : Handler) (q : ℕ × ℕ × ℕ × ℕ) :
    Except GmxError (List DihLine) :=
  h.slot_map.foldlM
    (fun acc e => if e.1.atom_indices = qList q then properEmit h q acc e else .ok acc) []

/-- Emission of one function-code-3 (Ryckaert-Bellemans) line. -/
def rbEmit (h : Handler) (q : ℕ × ℕ × ℕ × ℕ) (acc : List DihLine)
    (e : TopologyKey × String) : Except GmxError (List DihLine) := do
  let params ← potGet h e.2
  let c0 ← pget params "C0"
  let c1 ← pget params "C1"
  let c2 ← pget params "C2"
  let c3 ← pget params "C3"
  let c4 ← pget params "C4"
  let c5 ← pget params "C5"
  .ok (acc ++ [DihLine.rb (q.1 + 1) (q.2.1 + 1) (q.2.2.1 + 1) (q.2.2.2 + 1) 3
    c0 c1 c2 c3 c4 c5])

/-- RB pass over one quartet. -/
def rbPassQuartet (h : Handler) (q : ℕ × ℕ × ℕ × ℕ) :
    Except GmxError (List DihLine) :=
  h.slot_map.foldlM
    (fun acc e => if e.1.atom_indices = qList q then rbEmit h q acc e else .ok acc) []

/-- Emission of one function-code-4 (improper) line: here `idivf` is read by
plain dict access, with no default. -/
def improperEmit (h : Handler) (q : ℕ × ℕ × ℕ × ℕ) (acc : List DihLine)
    (e : TopologyKey × String) : Except GmxError (List DihLine) := do
  let params ← potGet h e.2
  let k ← pget params "k"
  let per ← pget params "periodicity"
  let phase ← pget params "phase"
  let idivf ← pget params "idivf"
  .ok (acc ++ [DihLine.improper (q.1 + 1) (q.2.1 + 1) (q.2.2.1 + 1) (q.2.2.2 + 1) 4
    phase (k / ((pyInt idivf : ℤ) : ℚ)) (pyInt per)])

/-- Improper pass over one quartet. -/
def improperPassQuartet (h : Handler) (q : ℕ × ℕ × ℕ × ℕ) :
    Except GmxError (List DihLine) :=
  h.slot_map.foldlM
    (fun acc e => if e.1.atom_indices = qList q then improperEmit h q acc e else .ok acc) []

/-- Lines produced for one enumerated proper quartet: the ProperTorsions pass
and then, independently, the RBTorsions pass. -/
def properQuartetLines (ph rbh : Option Handler) (q : ℕ × ℕ × ℕ × ℕ) :
    Except GmxError (List DihLine) := do
  let l1 ← match ph with | some h => properPassQuartet h q | none => Except.ok []
  let l2 ← match rbh with | some h => rbPassQuartet h q | none => Except.ok []
  .ok (l1 ++ l2)

/-- `_write_dihedrals`: the whole section is skipped (result `none`) exactly
when none of ProperTorsions, RBTorsions, ImproperTorsions is present. -/
def _write_dihedrals (sys : GmxSystem) : Except GmxError (Option (List DihLine)) :=
  if hmem sys.handlers "ProperTorsions" || hmem sys.handlers "RBTorsions" ||
      hmem sys.handlers "ImproperTorsions" then do
    let pl ← sys.propers.foldlM
      (fun acc q => do
        let ls ← properQuartetLines (hfind sys.handlers "ProperTorsions")
          (hfind sys.handlers "RBTorsions") q
        pure (acc ++ ls)) []
    let il ← sys.impropers.foldlM
      (fun acc q =>
        match hfind sys.handlers "ImproperTorsions" with
        | some h => (improperPassQuartet h q).map (fun ls => acc ++ ls)
        | none => .ok acc) []
    .ok (some (pl ++ il))
  else .ok none

/-- `[ moleculetype ]`: constant name and exclusion depth. -/
def _write_moleculetype : String × ℕ := ("MOL", 3)

/-- `[ system ]` and `[ molecules ]`: constant name and single molecule count. -/
def _write_system_section : String × String × ℕ := ("System name", "MOL", 1)

/-- Structured content of the .top file written by `to_top`. -/
structure TopOutput where
  defaults : DefaultsLine
  atomtypes : List AtomtypeLine
  moleculetype : String × ℕ
  atoms : List AtomLine
  pairs : List PairLine
  bonds : Option (List BondLine)
  angles : Option (List AngleLine)
  dihedrals : Option (List DihLine)
  systemSection : String × String × ℕ
  deriving DecidableEq

/-- `to_top`: the topology-file writer, sequencing the section writers in the
fixed file order; the first raised error aborts the export. -/
def to_top (sys : GmxSystem) : Except GmxError TopOutput := do
  let d ← _write_top_defaults sys
  let tm := _build_typemap sys.atoms
  let ats ← _write_atomtypes sys tm
  let al ← _write_atoms sys tm
  let ps := _write_pairs sys
  let bs ← _write_bonds sys
  let ans ← _write_angles sys
  let ds ← _write_dihedrals sys
  .ok ⟨d, ats, _write_moleculetype, al, ps, bs, ans, ds, _write_system_section⟩

lemma ok_bind {ε α β : Type} (a : α) (f : α → Except ε β) :
    (Except.ok a : Except ε α) >>= f = f a := rfl

lemma error_bind {ε α β : Type} (e : ε) (f : α → Except ε β) :
    (Except.error e : Except ε α) >>= f = Except.error e := rfl

lemma exceptMap_ok {ε α β : Type} (f : α → β) (a : α) :
    (Except.ok a : Except ε α).map f = Except.ok (f a) := rfl

lemma exceptMap_error {ε α β : Type} (f : α → β) (e : ε) :
    (Except.error e : Except ε α).map f = Except.error e := rfl

lemma hmem_eq_false_iff (hs : List (String × Handler)) (n : String) :
    hmem hs n = false ↔ hfind hs n = none := by
  cases h : hfind hs n <;> simp [hmem, h]

lemma hget_eq_error (hs : List (String × Handler)) (n : String)
    (h : hfind hs n = none) : hget hs n = .error (.keyError n) := by
  simp [hget, h]

lemma getD_of_get? {α : Type} : ∀ (l : List α) (i : ℕ) (x d : α),
    l.get? i = some x → l.getD i d = x := by
  intro l
  induction l with
  | nil => intro i x d h; simp at h
  | cons a as ih =>
    intro i x d h
    cases i with
    | zero => simp at h; simp [List.getD, h]
    | succ j =>
      simp only [List.get?_cons_succ] at h
      simpa [List.getD] using ih j x d h

lemma get?_replicate {α : Type} (a : α) : ∀ (n i : ℕ), i < n →
    (List.replicate n a).get? i = some a := by
  intro n
  induction n with
  | zero => intro i h; omega
  | succ m ih =>
    intro i h
    cases i with
    | zero => simp [List.replicate]
    | succ j => simpa [List.replicate] using ih j (by omega)

/-- The slot-map scan threads its initial value: the result is the last match
when one exists, and the untouched initial value otherwise. -/
lemma scanSlot_init (sm : List (TopologyKey × String)) (ind : List ℕ) :
    ∀ init, scanSlot sm ind init = (scanSlot sm ind none).elim init some := by
  induction sm with
  | nil => intro init; simp [scanSlot]
  | cons e sm ih =>
    intro init
    simp only [scanSlot, List.foldl_cons] at *
    rw [ih (if e.1.atom_indices = ind then some e.2 else init),
      ih (if e.1.atom_indices = ind then some e.2 else none)]
    cases h : List.foldl
        (fun acc e => if e.1.atom_indices = ind then some e.2 else acc) none sm with
    | none => by_cases hm : e.1.atom_indices = ind <;> simp [hm]
    | some v => simp

/-- Appending an entry to the slot map: the appended entry wins whenever it
matches (last-match-wins). -/
lemma scanSlot_append_single (sm : List (TopologyKey × String))
    (e : TopologyKey × String) (ind : List ℕ) (init : Option String) :
    scanSlot (sm ++ [e]) ind init =
      if e.1.atom_indices = ind then some e.2 else scanSlot sm ind init := by
  simp [scanSlot, List.foldl_append]

/-- A fold whose body acts only on elements satisfying `p` equals the fold of
the action over the filtered list. -/
lemma foldlM_ite_filter {ε α β : Type} (p : α → Prop) [DecidablePred p]
    (f : β → α → Except ε β) :
    ∀ (l : List α) (acc : β),
      l.foldlM (fun b e => if p e then f b e else Except.ok b) acc =
        (l.filter (fun e => decide (p e))).foldlM f acc := by
  intro l
  induction l with
  | nil => intro acc; rfl
  | cons e l ih =>
    intro acc
    by_cases hp : p e
    · rw [List.foldlM_cons, List.filter_cons_of_pos (by simpa using hp), List.foldlM_cons]
      simp only [if_pos hp]
      cases hfe : f acc e with
      | error err => rfl
      | ok b => rw [ok_bind, ok_bind]; exact ih b
    · rw [List.foldlM_cons, List.filter_cons_of_neg (by simpa using hp)]
      simp only [if_neg hp]
      rw [ok_bind]
      exact ih acc

/-- Number of atoms of element symbol `s` in `l`. -/
def countSymbol (l : List MAtom) (s : String) : ℕ :=
  l.countP (fun a => decide (a.symbol = s))

lemma buildTypemapGo_get? : ∀ (atoms : List MAtom) (c : String → ℕ) (start i : ℕ)
    (a : MAtom), atoms.get? i = some a →
    (buildTypemapGo atoms c start).get? i =
      some (start + i,
        a.symbol ++ toString (c a.symbol + countSymbol (atoms.take (i + 1)) a.symbol)) := by
  intro atoms
  induction atoms with
  | nil => intro c start i a h; simp at h
  | cons x xs ih =>
    intro c start i a h
    cases i with
    | zero =>
      simp only [List.get?_cons_zero, Option.some_inj] at h
      subst h
      simp [buildTypemapGo, countSymbol]
    | succ j =>
      simp only [List.get?_cons_succ] at h
      rw [show buildTypemapGo (x :: xs) c start =
        (start, x.symbol ++ toString (c x.symbol + 1)) ::
          buildTypemapGo xs (fun t => if t = x.symbol then c x.symbol + 1 else c t)
            (start + 1) from rfl]
      rw [List.get?_cons_succ, ih _ (start + 1) j a h]
      simp only [Option.some_inj, Prod.mk.injEq]
      refine ⟨by omega, ?_⟩
      have htake : (x :: xs).take (j + 1 + 1) = x :: xs.take (j + 1) := rfl
      rw [htake]
      have hcount : countSymbol (x :: xs.take (j + 1)) a.symbol =
          countSymbol (xs.take (j + 1)) a.symbol +
            (if x.symbol = a.symbol then 1 else 0) := by
        simp [countSymbol, List.countP_cons]
      rw [hcount]
      refine congrArg (fun n => a.symbol ++ toString n) ?_
      by_cases hx : a.symbol = x.symbol
      · rw [if_pos hx, if_pos hx.symm, hx]
        omega
      · rw [if_neg hx, if_neg (Ne.symm hx)]
        omega

lemma groLinesGo_get? (tm : List (ℕ × String)) (d : ℕ) (f : ℚ) :
    ∀ (atoms : List MAtom) (ps : List (ℚ × ℚ × ℚ)) (start i : ℕ) (a : MAtom)
      (p : ℚ × ℚ × ℚ), atoms.get? i = some a → ps.get? i = some p →
      (groLinesGo tm d f start atoms ps).get? i = some (groLineOf tm d f (start + i) a p) := by
  intro atoms
  induction atoms with
  | nil => intro ps start i a p ha; simp at ha
  | cons x xs ih =>
    intro ps start i a p ha hp
    cases ps with
    | nil => simp at hp
    | cons y ys =>
      cases i with
      | zero =>
        simp only [List.get?_cons_zero, Option.some_inj] at ha hp
        subst ha; subst hp
        simp [groLinesGo]
      | succ j =>
        simp only [List.get?_cons_succ] at ha hp
        rw [show groLinesGo tm d f start (x :: xs) (y :: ys) =
          groLineOf tm d f start x y :: groLinesGo tm d f (start + 1) xs ys from rfl]
        rw [List.get?_cons_succ, ih ys (start + 1) j a p ha hp]
        rw [show start + 1 + j = start + (j + 1) by omega]

/-! Concrete systems used by counterexamples and witnesses. -/

def zeroBox : Box3 := ⟨0, 0, 0, 0, 0, 0, 0, 0, 0⟩

/-- An Angles handler with a single slot-map entry for the triple (0,1,2). -/
def exAnglesH : Handler :=
  ⟨0, [⟨⟨[0, 1, 2], none⟩, "p1"⟩], [("p1", [("k", 400), ("angle", 104)])], []⟩

/-- Two angles, of which only the first has a slot-map entry. -/
def exC1 : GmxSystem :=
  ⟨[], [], 1, zeroBox, 1, [], [(0, 1, 2), (3, 4, 5)], [], [], [("Angles", exAnglesH)]⟩

def exVdw : Handler := ⟨1/2, [], [], []⟩

def exBuck : Handler := ⟨1/3, [], [], []⟩

def exEl : Handler := ⟨5/6, [], [], []⟩

/-- Both vdW-like handlers present at once, plus Electrostatics. -/
def exC2 : GmxSystem :=
  ⟨[], [], 1, zeroBox, 1, [], [], [], [],
    [("vdW", exVdw), ("Buckingham-6", exBuck), ("Electrostatics", exEl)]⟩

/-- A ProperTorsions handler resolving the quartet (0,1,2,3) once. -/
def exPH : Handler :=
  ⟨0, [⟨⟨[0, 1, 2, 3], some 1⟩, "pt"⟩],
    [("pt", [("k", 12), ("periodicity", 3), ("phase", 0), ("idivf", 1)])], []⟩

/-- An RBTorsions handler resolving the quartet (0,1,2,3) once. -/
def exRBH : Handler :=
  ⟨0, [⟨⟨[0, 1, 2, 3], none⟩, "rb"⟩],
    [("rb", [("C0", 1), ("C1", 2), ("C2", 3), ("C3", 4), ("C4", 5), ("C5", 6)])], []⟩

/-- Water-like ordered atom sequence: one oxygen, two hydrogens. -/
def exWater : List MAtom :=
  [⟨"O", 16, 8, 0, "HOH", "HOH0"⟩, ⟨"H", 1, 1, 0, "HOH", "HOH0"⟩,
    ⟨"H", 1, 1, 0, "HOH", "HOH0"⟩]

def exAtomO : MAtom := ⟨"O", 16, 8, 0, "RES", "RES0"⟩

/-- One atom whose position is stored in a unit worth a tenth of a nanometer,
with a component whose ninth nanometer decimal is nonzero. -/
def exC7 : GmxSystem :=
  ⟨[exAtomO], [((3 : ℚ)/100000000, 0, 0)], 1/10, zeroBox, 1, [], [], [], [], []⟩

def exBigAtom : MAtom := ⟨"C", 12, 6, 7, "RES", "RES7"⟩

/-- A system with exactly 100000 atoms, to reach the serial wraparound. -/
def exBigSys : GmxSystem :=
  ⟨List.replicate 100000 exBigAtom, List.replicate 100000 ((0 : ℚ), (0 : ℚ), (0 : ℚ)),
    1, zeroBox, 1, [], [], [], [], []⟩

/-- An ImproperTorsions handler whose resolved parameter set lacks idivf. -/
def exIH : Handler :=
  ⟨0, [⟨⟨[0, 1, 2, 3], none⟩, "p"⟩],
    [("p", [("k", 10), ("periodicity", 2), ("phase", 180)])], []⟩

/-- One improper quartet resolved by a parameter set without idivf. -/
def exC9 : GmxSystem :=
  ⟨[], [], 1, zeroBox, 1, [], [], [], [(0, 1, 2, 3)], [("ImproperTorsions", exIH)]⟩

/-- A handler set with a vdW handler but no Electrostatics handler. -/
def exC10 : GmxSystem :=
  ⟨[], [], 1, zeroBox, 1, [], [], [], [], [("vdW", exVdw)]⟩

/-! Claim C5. -/

/-- C5: the type map assigns to each atom the label formed by its element
symbol followed by the 1-based count of atoms of that element seen so far in
ascending index order, and building the map twice on the same ordered sequence
produces identical labels. -/
theorem C5_typemap_labels :
    (∀ (atoms : List MAtom) (i : ℕ) (a : MAtom), atoms.get? i = some a →
      (_build_typemap atoms).get? i =
        some (i, a.symbol ++ toString (countSymbol (atoms.take (i + 1)) a.symbol)))
    ∧ (∀ atoms : List MAtom, _build_typemap atoms = _build_typemap atoms) := by
  constructor
  · intro atoms i a h
    have hgo := buildTypemapGo_get? atoms (fun _ => 0) 0 i a h
    simpa using hgo
  · intro atoms
    rfl

/-- Witness for C5 on the water-like sequence: the third atom is the second
hydrogen and is labelled H2. -/
theorem C5_witness_water : (_build_typemap exWater).get? 2 = some (2, "H2") := by
  have h := C5_typemap_labels.1 exWater 2 ⟨"H", 1, 1, 0, "HOH", "HOH0"⟩ rfl
  rw [h]
  decide

/-! Claim C6. -/

lemma isRectangular_iff (b : Box3) : isRectangular b = true ↔
    (b.xy = 0 ∧ b.xz = 0 ∧ b.yx = 0 ∧ b.yz = 0 ∧ b.zx = 0 ∧ b.zy = 0) := by
  cases b
  simp [isRectangular, diagOnly, Box3.mk.injEq]

/-- C6: the coordinate writer classifies the box as rectangular exactly when
all off-diagonal entries are zero after conversion to nanometers; a
rectangular box emits the three diagonal fields, a triclinic box the three
diagonal fields followed by the six off-diagonal fields in row-major order
skipping the diagonal, each with width 11 and 7 fractional digits. -/
theorem C6_box_classification : ∀ sys : GmxSystem,
    (isRectangular (boxScale sys.boxToNm sys.box) = true ↔
      ((boxScale sys.boxToNm sys.box).xy = 0 ∧ (boxScale sys.boxToNm sys.box).xz = 0 ∧
        (boxScale sys.boxToNm sys.box).yx = 0 ∧ (boxScale sys.boxToNm sys.box).yz = 0 ∧
        (boxScale sys.boxToNm sys.box).zx = 0 ∧ (boxScale sys.boxToNm sys.box).zy = 0))
    ∧ writeGroBox sys =
      (if isRectangular (boxScale sys.boxToNm sys.box) then
        [ff117 (boxScale sys.boxToNm sys.box).xx, ff117 (boxScale sys.boxToNm sys.box).yy,
          ff117 (boxScale sys.boxToNm sys.box).zz]
      else
        [ff117 (boxScale sys.boxToNm sys.box).xx, ff117 (boxScale sys.boxToNm sys.box).yy,
          ff117 (boxScale sys.boxToNm sys.box).zz, ff117 (boxScale sys.boxToNm sys.box).xy,
          ff117 (boxScale sys.boxToNm sys.box).xz, ff117 (boxScale sys.boxToNm sys.box).yx,
          ff117 (boxScale sys.boxToNm sys.box).yz, ff117 (boxScale sys.boxToNm sys.box).zx,
          ff117 (boxScale sys.boxToNm sys.box).zy])
    ∧ ff117 = fun v => (⟨11, 7, v⟩ : FixedField) := by
  intro sys
  exact ⟨isRectangular_iff _, rfl, rfl⟩

/-! Claim C8. -/

/-- C8: in the coordinate file the emitted atom serial is the 1-based atom
index modulo 100000 and the emitted residue serial the 1-based residue index
modulo 100000; in particular the atom at 0-based index 99999 is emitted with
serial value 0. -/
theorem C8_serial_wraparound :
    (∀ (sys : GmxSystem) (d i : ℕ) (a : MAtom) (p : ℚ × ℚ × ℚ),
      sys.atoms.get? i = some a → sys.positions.get? i = some p →
      ((to_gro sys d).lines.getD i dfltGroLine).atomSerial = (i + 1) % 100000 ∧
        ((to_gro sys d).lines.getD i dfltGroLine).residueSerial =
          (a.resIndex + 1) % 100000)
    ∧ (∀ (sys : GmxSystem) (d : ℕ) (a : MAtom) (p : ℚ × ℚ × ℚ),
      sys.atoms.get? 99999 = some a → sys.positions.get? 99999 = some p →
      ((to_gro sys d).lines.getD 99999 dfltGroLine).atomSerial = 0) := by
  have main : ∀ (sys : GmxSystem) (d i : ℕ) (a : MAtom) (p : ℚ × ℚ × ℚ),
      sys.atoms.get? i = some a → sys.positions.get? i = some p →
      ((to_gro sys d).lines.getD i dfltGroLine).atomSerial = (i + 1) % 100000 ∧
        ((to_gro sys d).lines.getD i dfltGroLine).residueSerial =
          (a.resIndex + 1) % 100000 := by
    intro sys d i a p ha hp
    have hline := groLinesGo_get? (_build_typemap sys.atoms) d sys.posToNm
      sys.atoms sys.positions 0 i a p ha hp
    have hd : (to_gro sys d).lines.getD i dfltGroLine =
        groLineOf (_build_typemap sys.atoms) d sys.posToNm (0 + i) a p :=
      getD_of_get? _ i _ dfltGroLine hline
    rw [hd]
    constructor
    · simp [groLineOf]
    · simp [groLineOf]
  refine ⟨main, ?_⟩
  intro sys d a p ha hp
  rw [(main sys d 99999 a p ha hp).1]

/-- Witness for C8 at the wraparound boundary on a 100000-atom system. -/
theorem C8_witness_boundary :
    ((to_gro exBigSys 8).lines.getD 99999 dfltGroLine).atomSerial = 0 :=
  C8_serial_wraparound.2 exBigSys 8 exBigAtom ((0 : ℚ), (0 : ℚ), (0 : ℚ))
    (get?_replicate exBigAtom 100000 99999 (by norm_num))
    (get?_replicate ((0 : ℚ), (0 : ℚ), (0 : ℚ)) 100000 99999 (by norm_num))

/-! Claim C7. -/

unseal Rat.mul Rat.inv Rat.add Rat.sub in
/-- C7 as stated is false on the code: the writer rounds the position in its
stored unit and then converts to nanometers, not the other way round.  For a
position of 3e-8 stored in tenths of nanometers the emitted value is 3e-9,
while rounding the converted value to 8 digits gives 0. -/
theorem C7_round_order_counterexample :
    ((to_gro exC7 8).lines.getD 0 dfltGroLine).x.value = 3 / 1000000000 ∧
      np_round (exC7.posToNm * ((3 : ℚ) / 100000000)) 8 = 0 ∧
      ((3 : ℚ) / 1000000000) ≠ 0 := by
  refine ⟨?_, ?_, ?_⟩ <;> decide

/-- C7 amended: each emitted coordinate value equals the position component
rounded to `decimals` digits in its stored unit and then converted to
nanometers, in a fixed-width field of width decimals+5 and precision
decimals. -/
theorem C7_gro_rounding_amended :
    ∀ (sys : GmxSystem) (d i : ℕ) (a : MAtom) (p : ℚ × ℚ × ℚ),
      sys.atoms.get? i = some a → sys.positions.get? i = some p →
      (to_gro sys d).lines.get? i =
          some (groLineOf (_build_typemap sys.atoms) d sys.posToNm i a p) ∧
        (groLineOf (_build_typemap sys.atoms) d sys.posToNm i a p).x =
          ⟨d + 5, d, sys.posToNm * np_round p.1 d⟩ ∧
        (groLineOf (_build_typemap sys.atoms) d sys.posToNm i a p).y =
          ⟨d + 5, d, sys.posToNm * np_round p.2.1 d⟩ ∧
        (groLineOf (_build_typemap sys.atoms) d sys.posToNm i a p).z =
          ⟨d + 5, d, sys.posToNm * np_round p.2.2 d⟩ := by
  intro sys d i a p ha hp
  have hline := groLinesGo_get? (_build_typemap sys.atoms) d sys.posToNm
    sys.atoms sys.positions 0 i a p ha hp
  rw [Nat.zero_add] at hline
  exact ⟨hline, rfl, rfl, rfl⟩

/-- Witness for the amended C7 on the one-atom system. -/
theorem C7_witness_line :
    (to_gro exC7 8).lines.get? 0 =
        some (groLineOf (_build_typemap exC7.atoms) 8 exC7.posToNm 0 exAtomO
          ((3 : ℚ) / 100000000, 0, 0)) ∧
      (groLineOf (_build_typemap exC7.atoms) 8 exC7.posToNm 0 exAtomO
          ((3 : ℚ) / 100000000, 0, 0)).x =
        ⟨8 + 5, 8, exC7.posToNm * np_round ((3 : ℚ) / 100000000) 8⟩ :=
  ⟨(C7_gro_rounding_amended exC7 8 0 exAtomO ((3 : ℚ) / 100000000, 0, 0) rfl rfl).1,
    (C7_gro_rounding_amended exC7 8 0 exAtomO ((3 : ℚ) / 100000000, 0, 0) rfl rfl).2.1⟩

/-! Claim C1. -/

/-- C1 as stated is false on the code: in the angles writer an interaction key
with no matching slot-map entry does not fail once an earlier angle has
resolved; the stale identifier is silently reused.  Here the second angle
(3,4,5) matches no entry, yet the writer succeeds and emits a second line with
the first angle's parameters. -/
theorem C1_angles_stale_counterexample :
    scanSlot exAnglesH.slot_map (angleKey (3, 4, 5)) none = none ∧
      _write_angles exC1 = .ok (some
        [⟨1, 2, 3, "1", 104, 400⟩, ⟨4, 5, 6, "1", 104, 400⟩]) :=
  ⟨rfl, rfl⟩

/-- C1 amended: the slot-map scan compares atom-index tuples over all entries
and the last matching entry wins; the scan leaves its initial value in place
when nothing matches.  In the bonds writer the resolved identifier is deleted
after every bond, so each bond with no matching entry fails - with an
unbound-local error, not a ResolutionError.  In the angles writer the
identifier persists: a miss with no previously resolved angle fails the same
way, while a miss after a successful resolution silently reuses the previous
identifier. -/
theorem C1_slot_resolution_amended :
    (∀ (sm : List (TopologyKey × String)) (ind : List ℕ) (init : Option String),
      scanSlot sm ind init = (scanSlot sm ind none).elim init some)
    ∧ (∀ (sm : List (TopologyKey × String)) (e : TopologyKey × String)
        (ind : List ℕ) (init : Option String),
      scanSlot (sm ++ [e]) ind init =
        if e.1.atom_indices = ind then some e.2 else scanSlot sm ind init)
    ∧ (∀ (h : Handler) (acc : List BondLine) (bond : ℕ × ℕ),
      scanSlot h.slot_map (bondKey bond) none = none →
      bondStep h acc bond = .error (.unboundLocal "pot_key"))
    ∧ (∀ (h : Handler) (st : List AngleLine) (ang : ℕ × ℕ × ℕ),
      scanSlot h.slot_map (angleKey ang) none = none →
      angleStep h (none, st) ang = .error (.unboundLocal "pot_key"))
    ∧ (∀ (h : Handler) (pk : String) (st : List AngleLine) (ang : ℕ × ℕ × ℕ),
      scanSlot h.slot_map (angleKey ang) none = none →
      angleStep h (some pk, st) ang = angleEmit h pk st ang) := by
  refine ⟨scanSlot_init, scanSlot_append_single, ?_, ?_, ?_⟩
  · intro h acc bond hscan
    rw [bondStep, hscan]
  · intro h st ang hscan
    rw [angleStep]
    rw [show (none, st).1 = (none : Option String) from rfl, hscan]
  · intro h pk st ang hscan
    rw [angleStep]
    rw [show (some pk, st).1 = some pk from rfl, scanSlot_init, hscan]
    rfl

/-- Witness for the amended C1: a bond with no matching entry fails with the
unbound-local error. -/
theorem C1_witness_bonds_miss :
    bondStep exAnglesH [] (7, 9) = .error (.unboundLocal "pot_key") :=
  C1_slot_resolution_amended.2.2.1 exAnglesH [] (7, 9) rfl

/-! Claim C2. -/

/-- C2 as stated is false on the code: with both vdW-like handlers present the
defaults writer raises nothing and silently takes the vdW branch. -/
theorem C2_both_vdw_counterexample :
    hmem exC2.handlers "vdW" = true ∧ hmem exC2.handlers "Buckingham-6" = true ∧
      _write_top_defaults exC2 = .ok ⟨1, "2", "yes", 1/2, 5/6⟩ :=
  ⟨rfl, rfl, rfl⟩

/-- C2 amended: with neither vdW-like handler present the defaults writer
fails with an unbound-local error on nbfunc (not UnsupportedExportError); with
vdW present - even together with Buckingham-6 - it emits nonbonded function
code 1, combination rule 2 and gen-pairs yes; with only Buckingham-6 present
it emits code 2, combination rule 2 and gen-pairs no.  In both emitting
branches the electrostatics 1-4 factor comes from a dict lookup that raises
KeyError when the Electrostatics handler is absent. -/
theorem C2_defaults_amended :
    (∀ sys : GmxSystem, hfind sys.handlers "vdW" = none →
      hfind sys.handlers "Buckingham-6" = none →
      _write_top_defaults sys = .error (.unboundLocal "nbfunc"))
    ∧ (∀ (sys : GmxSystem) (hv : Handler), hfind sys.handlers "vdW" = some hv →
      _write_top_defaults sys = (hget sys.handlers "Electrostatics").map
        (fun e => ⟨1, "2", "yes", hv.scale_14, e.scale_14⟩))
    ∧ (∀ (sys : GmxSystem) (hb : Handler), hfind sys.handlers "vdW" = none →
      hfind sys.handlers "Buckingham-6" = some hb →
      _write_top_defaults sys = (hget sys.handlers "Electrostatics").map
        (fun e => ⟨2, "2", "no", hb.scale_14, e.scale_14⟩)) := by
  refine ⟨?_, ?_, ?_⟩
  · intro sys h1 h2
    rw [_write_top_defaults, h1, h2]
  · intro sys hv h1
    rw [_write_top_defaults, h1]
  · intro sys hb h1 h2
    rw [_write_top_defaults, h1, h2]

/-- Witness for the amended C2: the vdW branch fires even though Buckingham-6
is present too. -/
theorem C2_witness_vdw_branch :
    _write_top_defaults exC2 = (hget exC2.handlers "Electrostatics").map
      (fun e => ⟨1, "2", "yes", exVdw.scale_14, e.scale_14⟩) :=
  C2_defaults_amended.2.1 exC2 exVdw rfl

lemma bind_ne_ok_none {ε α β : Type} (e : Except ε α) (f : α → Except ε (Option β))
    (hf : ∀ a, f a ≠ .ok none) : e >>= f ≠ .ok none := by
  cases e with
  | error err =>
    intro h
    rw [error_bind] at h
    simp at h
  | ok a =>
    rw [ok_bind]
    exact hf a

/-! Claim C3. -/

/-- C3: the atomtypes writer fails with UnsupportedExportError when both or
neither vdW-like handler is present; otherwise each typemap entry yields one
line carrying the label, the atomic number, the mass, placeholder charge 0,
particle-type flag A, and two converted parameters (sigma, epsilon) in the LJ
case or three (A, B, C) in the Buckingham case. -/
theorem C3_atomtypes_spec :
    (∀ (sys : GmxSystem) (tm : List (ℕ × String)),
      hmem sys.handlers "vdW" = true → hmem sys.handlers "Buckingham-6" = true →
      _write_atomtypes sys tm =
        .error (.unsupportedExport "Cannot mix 12-6 and Buckingham potentials in GROMACS"))
    ∧ (∀ (sys : GmxSystem) (tm : List (ℕ × String)),
      hmem sys.handlers "vdW" = false → hmem sys.handlers "Buckingham-6" = false →
      _write_atomtypes sys tm = .error (.unsupportedExport "No vdW interactions found"))
    ∧ (∀ (sys : GmxSystem) (tm : List (ℕ × String)),
      hmem sys.handlers "vdW" = true → hmem sys.handlers "Buckingham-6" = false →
      _write_atomtypes sys tm = tm.mapM (fun e => ljLineOf sys e.1 e.2))
    ∧ (∀ (sys : GmxSystem) (tm : List (ℕ × String)),
      hmem sys.handlers "vdW" = false → hmem sys.handlers "Buckingham-6" = true →
      _write_atomtypes sys tm = tm.mapM (fun e => buckLineOf sys e.1 e.2))
    ∧ (∀ (sys : GmxSystem) (idx : ℕ) (label : String) (line : AtomtypeLine),
      ljLineOf sys idx label = .ok line →
      ∃ (a : MAtom) (sig ep : ℚ), listAtom sys idx = .ok a ∧
        line = .lj label a.atomicNumber a.mass 0 "A" sig ep)
    ∧ (∀ (sys : GmxSystem) (idx : ℕ) (label : String) (line : AtomtypeLine),
      buckLineOf sys idx label = .ok line →
      ∃ (a : MAtom) (av bv cv : ℚ), listAtom sys idx = .ok a ∧
        line = .buck label a.atomicNumber a.mass 0 "A" av bv cv) := by
  refine ⟨?_, ?_, ?_, ?_, ?_, ?_⟩
  · intro sys tm h1 h2
    simp [_write_atomtypes, h1, h2]
  · intro sys tm h1 h2
    simp [_write_atomtypes, h1, h2]
  · intro sys tm h1 h2
    simp [_write_atomtypes, _write_atomtypes_lj, h1, h2]
  · intro sys tm h1 h2
    simp [_write_atomtypes, _write_atomtypes_buck, h1, h2]
  · intro sys idx label line hline
    unfold ljLineOf at hline
    cases ha : listAtom sys idx with
    | error err => rw [ha, error_bind] at hline; simp at hline
    | ok a =>
      rw [ha, ok_bind] at hline
      cases hps : _get_lj_parameters sys idx with
      | error err => rw [hps, error_bind] at hline; simp at hline
      | ok params =>
        rw [hps, ok_bind] at hline
        cases hs : pget params "sigma" with
        | error err => rw [hs, error_bind] at hline; simp at hline
        | ok sig =>
          rw [hs, ok_bind] at hline
          cases he : pget params "epsilon" with
          | error err => rw [he, error_bind] at hline; simp at hline
          | ok ep =>
            rw [he, ok_bind] at hline
            injection hline with h
            exact ⟨a, sig, ep, rfl, h.symm⟩
  · intro sys idx label line hline
    unfold buckLineOf at hline
    cases ha : listAtom sys idx with
    | error err => rw [ha, error_bind] at hline; simp at hline
    | ok a =>
      rw [ha, ok_bind] at hline
      cases hps : _get_buck_parameters sys idx with
      | error err => rw [hps, error_bind] at hline; simp at hline
      | ok params =>
        rw [hps, ok_bind] at hline
        cases hA : pget params "A" with
        | error err => rw [hA, error_bind] at hline; simp at hline
        | ok av =>
          rw [hA, ok_bind] at hline
          cases hB : pget params "B" with
          | error err => rw [hB, error_bind] at hline; simp at hline
          | ok bv =>
            rw [hB, ok_bind] at hline
            cases hC : pget params "C" with
            | error err => rw [hC, error_bind] at hline; simp at hline
            | ok cv =>
              rw [hC, ok_bind] at hline
              injection hline with h
              exact ⟨a, av, bv, cv, rfl, h.symm⟩

/-- Witness for C3: with both vdW-like handlers present the atomtypes writer
raises the mixing error. -/
theorem C3_witness_mixed_error :
    _write_atomtypes exC2 (_build_typemap exC2.atoms) =
      .error (.unsupportedExport "Cannot mix 12-6 and Buckingham potentials in GROMACS") :=
  C3_atomtypes_spec.1 exC2 (_build_typemap exC2.atoms) rfl rfl

/-! Claim C4. -/

/-- C4: the dihedrals section is skipped exactly when none of ProperTorsions,
RBTorsions, ImproperTorsions is present; a proper quartet resolved once by
each of the ProperTorsions and RBTorsions handlers yields two lines with the
same atom indices, one with function code 1 (phase, k/idivf, periodicity) and
one with function code 3 (six Ryckaert-Bellemans coefficients). -/
theorem C4_dihedrals_dual_emission :
    (∀ sys : GmxSystem, _write_dihedrals sys = .ok none ↔
      (hmem sys.handlers "ProperTorsions" = false ∧
        hmem sys.handlers "RBTorsions" = false ∧
        hmem sys.handlers "ImproperTorsions" = false))
    ∧ (∀ (hp hrb : Handler) (q : ℕ × ℕ × ℕ × ℕ) (tkp tkr : TopologyKey)
        (pkp pkr : String) (pp pr : Params) (k per phase iv c0 c1 c2 c3 c4 c5 : ℚ),
      hp.slot_map.filter (fun e => decide (e.1.atom_indices = qList q)) = [(tkp, pkp)] →
      potGet hp pkp = .ok pp →
      pget pp "k" = .ok k → pget pp "periodicity" = .ok per →
      pget pp "phase" = .ok phase → pfind pp "idivf" = some iv →
      hrb.slot_map.filter (fun e => decide (e.1.atom_indices = qList q)) = [(tkr, pkr)] →
      potGet hrb pkr = .ok pr →
      pget pr "C0" = .ok c0 → pget pr "C1" = .ok c1 → pget pr "C2" = .ok c2 →
      pget pr "C3" = .ok c3 → pget pr "C4" = .ok c4 → pget pr "C5" = .ok c5 →
      properQuartetLines (some hp) (some hrb) q = .ok
        [DihLine.proper (q.1 + 1) (q.2.1 + 1) (q.2.2.1 + 1) (q.2.2.2 + 1) 1
          phase (k / ((pyInt iv : ℤ) : ℚ)) (pyInt per),
          DihLine.rb (q.1 + 1) (q.2.1 + 1) (q.2.2.1 + 1) (q.2.2.2 + 1) 3
            c0 c1 c2 c3 c4 c5]) := by
  constructor
  · intro sys
    unfold _write_dihedrals
    split
    case isTrue hc =>
      constructor
      · intro h
        exact absurd h (bind_ne_ok_none _ _
          (fun pl => bind_ne_ok_none _ _ (fun il => by simp)))
      · rintro ⟨h1, h2, h3⟩
        rw [h1, h2, h3] at hc
        simp at hc
    case isFalse hc =>
      simp only [Bool.or_eq_true, not_or, Bool.not_eq_true] at hc
      constructor
      · intro _
        exact ⟨hc.1.1, hc.1.2, hc.2⟩
      · intro _
        rfl
  · intro hp hrb q tkp tkr pkp pkr pp pr k per phase iv c0 c1 c2 c3 c4 c5
    intro hfp hpp hk hper hphase hidivf hfr hpr h0 h1 h2 h3 h4 h5
    have hpass1 : properPassQuartet hp q = .ok
        [DihLine.proper (q.1 + 1) (q.2.1 + 1) (q.2.2.1 + 1) (q.2.2.2 + 1) 1
          phase (k / ((pyInt iv : ℤ) : ℚ)) (pyInt per)] := by
      unfold properPassQuartet
      rw [foldlM_ite_filter (fun e => e.1.atom_indices = qList q)
        (properEmit hp q) hp.slot_map [], hfp, List.foldlM_cons]
      unfold properEmit
      rw [hpp, ok_bind, hk, ok_bind, hper, ok_bind, hphase, ok_bind, hidivf]
      rfl
    have hpass2 : rbPassQuartet hrb q = .ok
        [DihLine.rb (q.1 + 1) (q.2.1 + 1) (q.2.2.1 + 1) (q.2.2.2 + 1) 3
          c0 c1 c2 c3 c4 c5] := by
      unfold rbPassQuartet
      rw [foldlM_ite_filter (fun e => e.1.atom_indices = qList q)
        (rbEmit hrb q) hrb.slot_map [], hfr, List.foldlM_cons]
      unfold rbEmit
      rw [hpr, ok_bind, h0, ok_bind, h1, ok_bind, h2, ok_bind, h3, ok_bind,
        h4, ok_bind, h5, ok_bind]
      rfl
    have hdef : properQuartetLines (some hp) (some hrb) q =
        properPassQuartet hp q >>= fun l1 =>
          rbPassQuartet hrb q >>= fun l2 => .ok (l1 ++ l2) := rfl
    rw [hdef, hpass1, ok_bind, hpass2, ok_bind]
    rfl

/-- Witness for C4: concrete handlers resolving the quartet (0,1,2,3) once
each produce the function-code-1 line followed by the function-code-3 line. -/
theorem C4_witness_two_lines :
    properQuartetLines (some exPH) (some exRBH) (0, 1, 2, 3) = .ok
      [DihLine.proper 1 2 3 4 1 0 (12 / ((pyInt 1 : ℤ) : ℚ)) (pyInt 3),
        DihLine.rb 1 2 3 4 3 1 2 3 4 5 6] :=
  C4_dihedrals_dual_emission.2 exPH exRBH (0, 1, 2, 3) ⟨[0, 1, 2, 3], some 1⟩
    ⟨[0, 1, 2, 3], none⟩ "pt" "rb"
    [("k", 12), ("periodicity", 3), ("phase", 0), ("idivf", 1)]
    [("C0", 1), ("C1", 2), ("C2", 3), ("C3", 4), ("C4", 5), ("C5", 6)]
    12 3 0 1 1 2 3 4 5 6
    rfl rfl rfl rfl rfl rfl rfl rfl rfl rfl rfl rfl rfl rfl

/-! Claim C9. -/

/-- C9 as stated is false on the code: the improper pass reads idivf by plain
dict access, so its absence raises KeyError, not a MissingParameterError. -/
theorem C9_improper_keyerror_counterexample :
    _write_dihedrals exC9 = .error (.keyError "idivf") ∧
      _write_dihedrals exC9 ≠ .error (.missingParameter "idivf") := by
  refine ⟨rfl, ?_⟩
  intro h
  rw [show _write_dihedrals exC9 = .error (.keyError "idivf") from rfl] at h
  simp at h

/-- C9 amended: a proper-torsion parameter set lacking idivf uses the default
value 1, so the emitted force-field value is k; an improper-torsion parameter
set lacking idivf makes the writer fail, with a KeyError on "idivf" rather
than a MissingParameterError. -/
theorem C9_idivf_amended :
    (∀ (h : Handler) (q : ℕ × ℕ × ℕ × ℕ) (tk : TopologyKey) (pk : String)
      (ps : Params) (k per phase : ℚ),
      h.slot_map.filter (fun e => decide (e.1.atom_indices = qList q)) = [(tk, pk)] →
      potGet h pk = .ok ps → pfind ps "idivf" = none →
      pget ps "k" = .ok k → pget ps "periodicity" = .ok per →
      pget ps "phase" = .ok phase →
      properPassQuartet h q = .ok
        [DihLine.proper (q.1 + 1) (q.2.1 + 1) (q.2.2.1 + 1) (q.2.2.2 + 1) 1
          phase k (pyInt per)])
    ∧ (∀ (h : Handler) (q : ℕ × ℕ × ℕ × ℕ) (tk : TopologyKey) (pk : String)
      (ps : Params) (k per phase : ℚ),
      h.slot_map.filter (fun e => decide (e.1.atom_indices = qList q)) = [(tk, pk)] →
      potGet h pk = .ok ps → pfind ps "idivf" = none →
      pget ps "k" = .ok k → pget ps "periodicity" = .ok per →
      pget ps "phase" = .ok phase →
      improperPassQuartet h q = .error (.keyError "idivf")) := by
  constructor
  · intro h q tk pk ps k per phase hf hpot hno hk hper hphase
    unfold properPassQuartet
    rw [foldlM_ite_filter (fun e => e.1.atom_indices = qList q)
      (properEmit h q) h.slot_map [], hf, List.foldlM_cons]
    unfold properEmit
    rw [hpot, ok_bind, hk, ok_bind, hper, ok_bind, hphase, ok_bind, hno]
    have hone : k / (((1 : ℤ) : ℚ)) = k := by
      norm_num
    simp only [List.foldlM_nil, List.nil_append]
    rw [hone]
    rfl
  · intro h q tk pk ps k per phase hf hpot hno hk hper hphase
    unfold improperPassQuartet
    rw [foldlM_ite_filter (fun e => e.1.atom_indices = qList q)
      (improperEmit h q) h.slot_map [], hf, List.foldlM_cons]
    unfold improperEmit
    rw [hpot, ok_bind, hk, ok_bind, hper, ok_bind, hphase, ok_bind]
    rw [show pget ps "idivf" = .error (.keyError "idivf") by rw [pget, hno]]
    rfl

/-- Witness for the amended C9: the concrete improper handler without idivf
fails with the KeyError. -/
theorem C9_witness_improper :
    improperPassQuartet exIH (0, 1, 2, 3) = .error (.keyError "idivf") :=
  C9_idivf_amended.2 exIH (0, 1, 2, 3) ⟨[0, 1, 2, 3], none⟩ "p"
    [("k", 10), ("periodicity", 2), ("phase", 180)] 10 2 180
    rfl rfl rfl rfl rfl rfl

/-! Claim C10. -/

/-- C10: with any vdW-like handler present but no Electrostatics handler, the
topology export fails with the key-lookup error on "Electrostatics" (raised
while writing the defaults section), regardless of every other input. -/
theorem C10_to_top_requires_electrostatics :
    ∀ sys : GmxSystem, hmem sys.handlers "Electrostatics" = false →
      (hmem sys.handlers "vdW" = true ∨ hmem sys.handlers "Buckingham-6" = true) →
      to_top sys = .error (.keyError "Electrostatics") := by
  intro sys hel hvb
  have hE : hfind sys.handlers "Electrostatics" = none :=
    (hmem_eq_false_iff _ _).mp hel
  have hdef : _write_top_defaults sys = .error (.keyError "Electrostatics") := by
    rcases hvb with hv | hb
    · obtain ⟨h, hh⟩ : ∃ h, hfind sys.handlers "vdW" = some h := by
        cases hfv : hfind sys.handlers "vdW" with
        | none => rw [hmem, hfv] at hv; simp at hv
        | some h => exact ⟨h, rfl⟩
      simp [_write_top_defaults, hh, hget_eq_error _ _ hE, exceptMap_error]
    · cases hfv : hfind sys.handlers "vdW" with
      | some h =>
        simp [_write_top_defaults, hfv, hget_eq_error _ _ hE, exceptMap_error]
      | none =>
        obtain ⟨h, hh⟩ : ∃ h, hfind sys.handlers "Buckingham-6" = some h := by
          cases hfb : hfind sys.handlers "Buckingham-6" with
          | none => rw [hmem, hfb] at hb; simp at hb
          | some h => exact ⟨h, rfl⟩
        simp [_write_top_defaults, hfv, hh, hget_eq_error _ _ hE, exceptMap_error]
  have hstep : to_top sys = _write_top_defaults sys >>= fun d =>
      (_write_atomtypes sys (_build_typemap sys.atoms) >>= fun ats =>
        _write_atoms sys (_build_typemap sys.atoms) >>= fun al =>
          _write_bonds sys >>= fun bs =>
            _write_angles sys >>= fun ans =>
              _write_dihedrals sys >>= fun ds =>
                .ok ⟨d, ats, _write_moleculetype, al, _write_pairs sys, bs, ans, ds,
                  _write_system_section⟩) := rfl
  rw [hstep, hdef, error_bind]

/-- Witness for C10: a handler set with only a vdW handler. -/
theorem C10_witness_missing_electrostatics :
    to_top exC10 = .error (.keyError "Electrostatics") :=
  C10_to_top_requires_electrostatics exC10 rfl (Or.inl rfl)

end OpenFFGromacs
